import Mathlib

/-!
Verification development for the reader3 document-normalization pipeline
(`src/app.py`).

The Python code is shallowly embedded as executable Lean definitions:

* `BookMetadata`, `ChapterContent`, `TOCEntry`, `Book` mirror the dataclasses
  used by `app.py` (imported from `reader3`): metadata, spine sections,
  table-of-contents nodes and the document record.  Binary image payloads
  (`Dict[str, bytes]`) are modelled as an association list of byte lists.
* `process_pdf` embeds `app.process_pdf`.  The external PyPDF2 reader is
  abstracted by its observable result: the list of per-page extracted texts
  and the optional author field; `datetime.now().isoformat()` is passed in as
  the `now` argument.
* `process_markdown` embeds `app.process_markdown`, including a faithful model
  of the two CPython regexes it uses (`^#\s+(.+)$` for the title override and
  `re.split(r'^(#{1,2}\s+.+)$', ..., re.MULTILINE)` for sectioning), with
  greedy matching and backtracking semantics, and of the section-accumulation
  loop.  The external `markdown.markdown` renderer is abstracted as a
  `render : String → String` parameter.
* `load_book_from_folder` and `get_all_books` embed the persistence lookups of
  `app.py` over an explicit directory-listing state; emitted `st.error`
  messages are returned alongside the result so error signalling is
  observable.
* `save_to_pickle` lives in the `reader3` module, which is not part of the
  sources at hand; it is modelled from the spec (see its doc comment) as an
  injective, self-describing serialization into a `PVal` artifact.
-/

/-- Mirrors `reader3.BookMetadata` as constructed by `app.py`. -/
structure BookMetadata where
  title : String
  language : String
  authors : List String
  description : Option String
  publisher : Option String
  date : String
  identifiers : List String
  subjects : List String
deriving DecidableEq

/-- Mirrors `reader3.ChapterContent` (one spine section). -/
structure ChapterContent where
  id : String
  href : String
  title : String
  content : String
  text : String
  order : Nat
deriving DecidableEq

/-- Mirrors a table-of-contents node as used by `app.py` (`item.title`,
`item.href`, `item.file_href`, `item.children`). -/
inductive TOCEntry where
  | mk : String → String → String → List TOCEntry → TOCEntry

/-- Mirrors `reader3.Book`: metadata, spine, toc, images (reference to raw
byte payload), source file name and processing timestamp. -/
structure Book where
  metadata : BookMetadata
  spine : List ChapterContent
  toc : List TOCEntry
  images : List (String × List Nat)
  source_file : String
  processed_at : String

/-- Default section used with `List.getD` when indexing a spine. -/
def dummyChapter : ChapterContent :=
  { id := "", href := "", title := "", content := "", text := "", order := 0 }

/-- Whitespace test matching Python's `\s` character class (and `str.strip`)
on the characters that can occur here: ASCII whitespace plus the common
Unicode whitespace code points. -/
def isPySpace (c : Char) : Bool :=
  c = ' ' || c = '\t' || c = '\n' || c = '\r' || c = '\x0b' || c = '\x0c' ||
  c = '\x1c' || c = '\x1d' || c = '\x1e' || c = '\x1f' || c = '\x85' ||
  c = '\xa0' || c = '\u1680' || c = '\u2000' || c = '\u2001' ||
  c = '\u2002' || c = '\u2003' || c = '\u2004' || c = '\u2005' ||
  c = '\u2006' || c = '\u2007' || c = '\u2008' || c = '\u2009' ||
  c = '\u200a' || c = '\u2028' || c = '\u2029' || c = '\u202f' ||
  c = '\u205f' || c = '\u3000'

/-- Python `str.strip()` on a character list. -/
def pyStripChars (l : List Char) : List Char :=
  ((l.dropWhile isPySpace).reverse.dropWhile isPySpace).reverse

/-- Python `str.strip('#')` on a character list. -/
def pyStripHashes (l : List Char) : List Char :=
  ((l.dropWhile (fun c => c = '#')).reverse.dropWhile (fun c => c = '#')).reverse

/-- Python `"sep".join(l)`. -/
def joinSep (sep : String) : List String → String
  | [] => ""
  | [x] => x
  | x :: xs => x ++ sep ++ joinSep sep xs

/-- Python `''.join(l)` (as produced by `''.join(current_content)`). -/
def joinStrs (l : List String) : String := l.foldl (fun a b => a ++ b) ""

/-- The author fallback of `app.process_pdf` (line 124): a one-element list
when PyPDF2 reports a truthy author string, `["Unknown"]` otherwise. -/
def pdfAuthors (author : Option String) : List String :=
  match author with
  | some a => if a.data.isEmpty then ["Unknown"] else [a]
  | none => ["Unknown"]

/-- The page-grouping loop of `app.process_pdf` (lines 132-156):
`for i in range(0, num_pages, 10)` builds one `ChapterContent` per group of
10 consecutive pages, the last group possibly shorter.  `k` is the group
index, so `i = 10 * k`. -/
def pdfSpine (pages : List String) : List ChapterContent :=
  (List.range ((pages.length + 9) / 10)).map (fun k =>
    let i := 10 * k
    let endPage := min (i + 10) pages.length
    let chapterPages := (pages.drop i).take (endPage - i)
    let chapterText := joinSep "\n\n" chapterPages
    let chapterHtml :=
      "<div style=\x27white-space: pre-wrap;\x27>" ++ chapterText ++ "</div>"
    { id := s!"chapter_{k}", href := s!"chapter_{k}.html",
      title := s!"Pages {i + 1}-{endPage}",
      content := chapterHtml, text := chapterText, order := k })

/-- Embeds `app.process_pdf` (lines 107-168).  `pages` is the list of
per-page texts extracted by PyPDF2, `author` the optional author metadata
field, `now` the `datetime.now().isoformat()` timestamp, `bn` the basename
of the source path. -/
def process_pdf (pages : List String) (author : Option String)
    (title bn now : String) : Book :=
  { metadata :=
      { title := title, language := "en", authors := pdfAuthors author,
        description := some s!"PDF document with {pages.length} pages",
        publisher := none, date := now, identifiers := [], subjects := [] },
    spine := pdfSpine pages, toc := [], images := [],
    source_file := bn, processed_at := now }

/-- Matcher for the tail `\s+(.+)$` of the heading regexes, applied to the
characters that follow the `#` marks, with CPython semantics: `\s+` is greedy
and may span newlines, `.` matches anything but `'\n'`, and `$` (multiline)
holds at the end of the input or directly before a `'\n'`.  On success it
returns `(span, group, rest)` with `cs = span ++ rest`, where `span` is the
matched part and `group` the `(.+)` capture.  When everything after the
marks is whitespace, greedy backtracking hands the last non-newline
whitespace character to `.+` (so e.g. `"#  "` matches with group `" "`,
while `"# "` does not match). -/
def matchWsBody (cs : List Char) : Option (List Char × List Char × List Char) :=
  let ws := cs.takeWhile isPySpace
  let rem := cs.dropWhile isPySpace
  if ws.isEmpty then none
  else if rem.isEmpty then
    let k := (ws.reverse.takeWhile (fun c => c = '\n')).length
    if k + 2 ≤ ws.length then
      let j := ws.length - k - 1
      some (ws.take (j + 1), (ws.drop j).take 1, ws.drop (j + 1))
    else none
  else
    let g := rem.takeWhile (fun c => c != '\n')
    some (ws ++ g, g, rem.drop g.length)

/-- Match of `re.split`'s pattern `^(#{1,2}\s+.+)$` at a line-start position.
`#{1,2}` is greedy; after two `#` fail, backtracking to one `#` always fails
too because the second character is then `'#'`, not whitespace.  Returns the
matched token (= the capture, which spans the whole match) and the rest of
the input. -/
def matchHeading (cs : List Char) : Option (List Char × List Char) :=
  match cs with
  | '#' :: '#' :: rest =>
    (match matchWsBody rest with
     | some (span, _, r) => some ('#' :: '#' :: span, r)
     | none => none)
  | '#' :: rest =>
    (match matchWsBody rest with
     | some (span, _, r) => some ('#' :: span, r)
     | none => none)
  | _ => none

/-- Match of `re.search`'s pattern `^#\s+(.+)$` (the `first_h1` lookup,
`app.py` line 183) at a line-start position; returns the `(.+)` capture. -/
def matchH1At (cs : List Char) : Option (List Char) :=
  match cs with
  | '#' :: rest =>
    (match matchWsBody rest with
     | some (_, g, _) => some g
     | none => none)
  | _ => none

/-- All suffixes of `cs` that start directly after a `'\n'`: together with
`cs` itself these are the positions where `^` matches in multiline mode. -/
def tailsAfterNewline : List Char → List (List Char)
  | [] => []
  | c :: rest =>
    if c = '\n' then rest :: tailsAfterNewline rest else tailsAfterNewline rest

/-- Embeds `re.search(r'^#\s+(.+)$', md_content, re.MULTILINE)` (`app.py`
line 183): the leftmost line-start position with an `^#\s+(.+)$` match, and
its capture. -/
def findH1 (cs : List Char) : Option (List Char) :=
  (cs :: tailsAfterNewline cs).findSome? matchH1At

/-- Splits off the current line: returns the characters up to and including
the first `'\n'` (or all of them if none), and the remaining characters. -/
def consumeLine : List Char → List Char × List Char
  | [] => ([], [])
  | c :: rest =>
    if c = '\n' then ([c], rest)
    else (c :: (consumeLine rest).1, (consumeLine rest).2)

/-- One step of the `re.split` scanner at a line-start position: on a match,
emit the pending chunk and the matched token and continue (through `rec`)
after the remnant of the line the match ended in; otherwise move the current
line into the chunk and continue, or emit the final chunk at the end of the
input. -/
def mdSplitStep (rec : List Char → List Char → List String)
    (cs chunk : List Char) : List String :=
  match matchHeading cs with
  | some (tok, rest) =>
    String.mk chunk :: String.mk tok ::
      rec (consumeLine rest).2 (consumeLine rest).1
  | none =>
    match cs with
    | [] => [String.mk chunk]
    | _ :: _ => rec (consumeLine cs).2 (chunk ++ (consumeLine cs).1)

/-- Scanner loop of `re.split(r'^(#{1,2}\s+.+)$', md_content, re.MULTILINE)`:
walks line starts, emitting the text between matches and each matched token
as successive pieces.  `fuel` only makes the recursion structural; every
step consumes at least one character, so `length + 1` fuel (as supplied by
`mdSplit`) never runs out. -/
def mdSplitGo : Nat → List Char → List Char → List String
  | 0, _, chunk => [String.mk chunk]
  | fuel + 1, cs, chunk => mdSplitStep (mdSplitGo fuel) cs chunk

/-- Embeds `re.split(r'^(#{1,2}\s+.+)$', md_content, flags=re.MULTILINE)`
(`app.py` line 188): the list of pieces, alternating text chunks and matched
heading tokens, concatenating back to the input. -/
def mdSplit (s : String) : List String :=
  mdSplitGo (s.data.length + 1) s.data []

/-- Python `section.startswith('#')`. -/
def secStartsHash (s : String) : Bool :=
  match s.data with
  | '#' :: _ => true
  | _ => false

/-- Mutable state of the section-accumulation loop of `app.process_markdown`
(lines 203-206): `spine`, `current_title`, `current_content`,
`chapter_idx`. -/
structure MState where
  spine : List ChapterContent
  current_title : String
  current_content : List String
  chapter_idx : Nat

/-- Initial loop state (`app.py` lines 203-206). -/
def initMState : MState :=
  { spine := [], current_title := "Introduction", current_content := [],
    chapter_idx := 0 }

/-- Chapter construction shared by the markdown loop and the fallback
(`app.py` lines 221-228, 246-253, 262-269). -/
def mkChapter (idx : Nat) (title content text : String) : ChapterContent :=
  { id := s!"chapter_{idx}", href := s!"chapter_{idx}.html", title := title,
    content := content, text := text, order := idx }

/-- The `if current_content:` block run when a heading token is reached
(`app.py` lines 214-230) and again after the loop (lines 239-254): flush the
accumulated content into a chapter.  Python's `if current_content:` is list
non-emptiness. -/
def mdStepFlush (render : String → String) (st : MState) : MState :=
  if st.current_content.isEmpty then st
  else
    { st with
      spine := st.spine ++
        [mkChapter st.chapter_idx st.current_title
          (render (joinStrs st.current_content)) (joinStrs st.current_content)],
      chapter_idx := st.chapter_idx + 1 }

/-- One iteration of `for i, section in enumerate(sections)` (`app.py` lines
208-236).  `section.strip()` is truthy iff stripping leaves a non-empty
string. -/
def mdStep (render : String → String) (st : MState) (isec : Nat × String) :
    MState :=
  if isec.1 = 0 && !(pyStripChars isec.2.data).isEmpty then
    { st with current_content := st.current_content ++ [isec.2] }
  else if secStartsHash isec.2 then
    { mdStepFlush render st with
      current_title := String.mk (pyStripChars (pyStripHashes isec.2.data)),
      current_content := [] }
  else
    { st with current_content := st.current_content ++ [isec.2] }

/-- The post-loop steps of `app.process_markdown`: append the last chapter
when `current_content` is non-empty (lines 239-254), then the
single-chapter fallback when the spine is still empty (lines 257-270). -/
def mdFinish (render : String → String) (titleFinal mdContent : String)
    (st : MState) : List ChapterContent :=
  if (mdStepFlush render st).spine.isEmpty then
    [mkChapter 0 titleFinal (render mdContent) mdContent]
  else (mdStepFlush render st).spine

/-- Embeds `app.process_markdown` (lines 170-282).  `render` abstracts the
external `markdown.markdown(..., extensions=['fenced_code', 'tables',
'codehilite'])` call, `mdContent` is the file text, `titleHint` the `title`
argument, `bn` the basename of the source path, `now` the timestamp. -/
def process_markdown (render : String → String) (mdContent : String)
    (titleHint bn now : String) : Book :=
  let title :=
    match findH1 mdContent.data with
    | some g => String.mk g
    | none => titleHint
  let sections := mdSplit mdContent
  let st := (sections.enum).foldl (mdStep render) initMState
  { metadata :=
      { title := title, language := "en", authors := ["Unknown"],
        description := some "Markdown document", publisher := none,
        date := now, identifiers := [], subjects := [] },
    spine := mdFinish render title mdContent st,
    toc := [], images := [], source_file := bn, processed_at := now }

/-- Serialized values: the object shapes that occur in a pickled `Book`
(strings, naturals for section orders and image payload bytes, sequences,
and `None`). -/
inductive PVal where
  | pstr : String → PVal
  | pnat : Nat → PVal
  | plist : List PVal → PVal
  | pnone : PVal

/-- Encoding of an optional string field. -/
def encOptStr : Option String → PVal
  | none => PVal.pnone
  | some s => PVal.pstr s

/-- Decoding of an optional string field. -/
def decOptStr : PVal → Option (Option String)
  | PVal.pnone => some none
  | PVal.pstr s => some (some s)
  | _ => none

/-- Encoding of a string list field. -/
def encStrList (l : List String) : PVal := PVal.plist (l.map PVal.pstr)

/-- Decoding of a list of string values. -/
def decStrList : List PVal → Option (List String)
  | [] => some []
  | v :: vs =>
    (match v with
     | PVal.pstr s =>
       (match decStrList vs with
        | some ss => some (s :: ss)
        | none => none)
     | _ => none)

/-- Encoding of an image payload (bytes). -/
def encBytes (b : List Nat) : PVal := PVal.plist (b.map PVal.pnat)

/-- Decoding of a list of byte values. -/
def decNatList : List PVal → Option (List Nat)
  | [] => some []
  | v :: vs =>
    (match v with
     | PVal.pnat n =>
       (match decNatList vs with
        | some ns => some (n :: ns)
        | none => none)
     | _ => none)

/-- Encoding of the metadata record. -/
def encMetadata (m : BookMetadata) : PVal :=
  PVal.plist [PVal.pstr m.title, PVal.pstr m.language, encStrList m.authors,
    encOptStr m.description, encOptStr m.publisher, PVal.pstr m.date,
    encStrList m.identifiers, encStrList m.subjects]

/-- Decoding of the metadata record. -/
def decMetadata : PVal → Option BookMetadata
  | PVal.plist [PVal.pstr t, PVal.pstr lang, PVal.plist av, dv, pv,
      PVal.pstr dt, PVal.plist iv, PVal.plist sv] =>
    (match decStrList av, decOptStr dv, decOptStr pv, decStrList iv,
        decStrList sv with
     | some as, some ds, some ps, some ids, some sbs =>
       some { title := t, language := lang, authors := as, description := ds,
              publisher := ps, date := dt, identifiers := ids, subjects := sbs }
     | _, _, _, _, _ => none)
  | _ => none

/-- Encoding of one spine section. -/
def encChapter (c : ChapterContent) : PVal :=
  PVal.plist [PVal.pstr c.id, PVal.pstr c.href, PVal.pstr c.title,
    PVal.pstr c.content, PVal.pstr c.text, PVal.pnat c.order]

/-- Decoding of one spine section. -/
def decChapter : PVal → Option ChapterContent
  | PVal.plist [PVal.pstr i, PVal.pstr h, PVal.pstr t, PVal.pstr c,
      PVal.pstr x, PVal.pnat o] =>
    some { id := i, href := h, title := t, content := c, text := x, order := o }
  | _ => none

/-- Decoding of a list of spine sections. -/
def decChapterList : List PVal → Option (List ChapterContent)
  | [] => some []
  | v :: vs =>
    (match decChapter v with
     | some c =>
       (match decChapterList vs with
        | some cs => some (c :: cs)
        | none => none)
     | none => none)

/-- Encoding of one image-map entry (reference, byte payload). -/
def encImage (kv : String × List Nat) : PVal :=
  PVal.plist [PVal.pstr kv.1, encBytes kv.2]

/-- Decoding of one image-map entry. -/
def decImage : PVal → Option (String × List Nat)
  | PVal.plist [PVal.pstr k, PVal.plist bv] =>
    (match decNatList bv with
     | some b => some (k, b)
     | none => none)
  | _ => none

/-- Decoding of the image map. -/
def decImageList : List PVal → Option (List (String × List Nat))
  | [] => some []
  | v :: vs =>
    (match decImage v with
     | some i =>
       (match decImageList vs with
        | some is => some (i :: is)
        | none => none)
     | none => none)

mutual

/-- Encoding of a table-of-contents node. -/
def encTOC : TOCEntry → PVal
  | TOCEntry.mk t h fh ch =>
    PVal.plist [PVal.pstr t, PVal.pstr h, PVal.pstr fh, PVal.plist (encTOCs ch)]

/-- Encoding of a table-of-contents forest. -/
def encTOCs : List TOCEntry → List PVal
  | [] => []
  | e :: es => encTOC e :: encTOCs es

end

mutual

/-- Decoding of a table-of-contents node. -/
def decTOC : PVal → Option TOCEntry
  | PVal.plist [PVal.pstr t, PVal.pstr h, PVal.pstr fh, PVal.plist l] =>
    (match decTOCs l with
     | some ch => some (TOCEntry.mk t h fh ch)
     | none => none)
  | _ => none

/-- Decoding of a table-of-contents forest. -/
def decTOCs : List PVal → Option (List TOCEntry)
  | [] => some []
  | v :: vs =>
    (match decTOC v with
     | some e =>
       (match decTOCs vs with
        | some es => some (e :: es)
        | none => none)
     | none => none)

end

/-- Version tag making the artifact self-describing, as §4.5/§6 of the spec
require for detecting format-version mismatches. -/
def bookVersionTag : String := "reader3.book.v1"

/-- Encoding of a whole `Book` into one artifact value. -/
def encBook (b : Book) : PVal :=
  PVal.plist [PVal.pstr bookVersionTag, encMetadata b.metadata,
    PVal.plist (b.spine.map encChapter), PVal.plist (encTOCs b.toc),
    PVal.plist (b.images.map encImage), PVal.pstr b.source_file,
    PVal.pstr b.processed_at]

/-- Decoding of a whole `Book`; `none` models a deserialization failure
(truncated data, wrong shape, or version-tag mismatch). -/
def decBook : PVal → Option Book
  | PVal.plist [PVal.pstr ver, mv, PVal.plist sv, PVal.plist tv,
      PVal.plist iv, PVal.pstr sf, PVal.pstr pa] =>
    if ver = bookVersionTag then
      match decMetadata mv, decChapterList sv, decTOCs tv, decImageList iv with
      | some m, some sp, some tc, some im =>
        some { metadata := m, spine := sp, toc := tc, images := im,
               source_file := sf, processed_at := pa }
      | _, _, _, _ => none
    else none
  | _ => none

/-- On-disk state of a `book.pkl` file: either bytes on which `pickle.load`
raises, or a well-formed pickle of the value `v`. -/
inductive StoredFile where
  | corrupt : StoredFile
  | blob : PVal → StoredFile

/-- Behaviour of the external `pickle.load` on a stored file, at the
granularity of this model: `none` when loading raises (corrupt bytes or a
blob that does not decode to a `Book`), `some b` when it yields the book
`b`. -/
def pickleLoad : StoredFile → Option Book
  | StoredFile.corrupt => none
  | StoredFile.blob v => decBook v

/-- One entry of the library root directory: a non-directory entry, or a
directory that may or may not contain a `book.pkl` file. -/
inductive Entry where
  | plain : Entry
  | dir : Option StoredFile → Entry

/-- Directory listing of the library root (`BOOKS_DIR`), in iteration
order.  Real directory listings have pairwise-distinct names. -/
def RootFS := List (String × Entry)

/-- Name lookup in a directory listing. -/
def lookupEntry : List (String × Entry) → String → Option Entry
  | [], _ => none
  | (m, e) :: rest, n => if m = n then some e else lookupEntry rest n

/-- Replace-or-append of a directory entry (directory creation plus
replacement of a prior artifact at the same location). -/
def setEntry : List (String × Entry) → String → Entry → List (String × Entry)
  | [], n, e => [(n, e)]
  | (m, x) :: rest, n, e =>
    if m = n then (n, e) :: rest else (m, x) :: setEntry rest n e

/-- The message emitted through `st.error` by `app.load_book_from_folder`
(line 87); the model keeps the fixed prefix of the f-string. -/
def loadErr (name : String) : String := "Error loading book " ++ name

/-- Embeds `app.load_book_from_folder` (lines 77-88).  The first component
is the returned value (`None` is `none`); the second lists the `st.error`
messages emitted, so the corrupt-artifact signal is observable.  A missing
directory, a non-directory entry on the path, or a directory without
`book.pkl` all make `file_path.exists()` false: the function returns `None`
without an error.  When the file exists but `pickle.load` raises, the
exception is caught, an error is reported, and `None` is returned. -/
def load_book_from_folder (name : String) (fs : List (String × Entry)) :
    Option Book × List String :=
  match lookupEntry fs name with
  | some (Entry.dir (some f)) =>
    (match pickleLoad f with
     | some b => (some b, [])
     | none => (none, [loadErr name]))
  | _ => (none, [])

/-- Modelled from the spec: `reader3.save_to_pickle(book, output_dir)` is
not among the sources at hand.  Per §4.5 it serializes the Document
(including binary image payloads) into a single self-describing artifact
inside the destination directory, creating the directory if absent and
replacing any prior artifact at that location. -/
def save_to_pickle (b : Book) (dir : String) (fs : List (String × Entry)) :
    List (String × Entry) :=
  setEntry fs dir (Entry.dir (some (StoredFile.blob (encBook b))))

/-- One summary record of `app.get_all_books` (lines 98-104). -/
structure BookSummary where
  id : String
  title : String
  authors : List String
  chapters : Nat
  book : Book

/-- Summary construction (`app.py` lines 98-104). -/
def mkSummary (n : String) (b : Book) : BookSummary :=
  { id := n, title := b.metadata.title, authors := b.metadata.authors,
    chapters := b.spine.length, book := b }

/-- Python `item.name.endswith("_data")`. -/
def nameHasDataSuffix (n : String) : Bool := "_data".data.isSuffixOf n.data

/-- Directory test for a root entry. -/
def isDirEntry : Entry → Bool
  | Entry.dir _ => true
  | Entry.plain => false

/-- Iteration of `app.get_all_books` (lines 94-104) over the remaining
entries, with the full listing available for the per-name lookups done by
`load_book_from_folder`.  A loaded `Book` instance is always truthy in
Python, so `if book:` appends exactly when the load returned a book. -/
def get_all_books_go (fs : List (String × Entry)) :
    List (String × Entry) → List BookSummary × List String
  | [] => ([], [])
  | (n, e) :: rest =>
    let tl := get_all_books_go fs rest
    if isDirEntry e && nameHasDataSuffix n then
      match load_book_from_folder n fs with
      | (some b, errs) => (mkSummary n b :: tl.1, errs ++ tl.2)
      | (none, errs) => (tl.1, errs ++ tl.2)
    else tl

/-- Embeds `app.get_all_books` (lines 90-105): scans the root listing,
keeping one summary per successfully loaded book; the second component
collects the error messages reported for skipped entries. -/
def get_all_books (fs : List (String × Entry)) :
    List BookSummary × List String :=
  get_all_books_go fs fs

/-- Filesystem state for the destination-directory side effects of the
extractors: a map from directory path to the (flattened) set of files the
directory tree holds.  Directory names are unique on a real filesystem, so
removal drops every entry with the given path. -/
def OutFS := List (String × List String)

/-- Path lookup in the destination filesystem. -/
def lookupOut : List (String × List String) → String → Option (List String)
  | [], _ => none
  | (m, fls) :: rest, n => if m = n then some fls else lookupOut rest n

/-- Embeds `shutil.rmtree(output_dir)`: the whole tree at the path is
removed. -/
def rmtreeOut (fs : List (String × List String)) (dir : String) :
    List (String × List String) :=
  fs.filter (fun p => p.1 ≠ dir)

/-- Embeds `os.makedirs(output_dir, exist_ok=True)`. -/
def makedirsOut (fs : List (String × List String)) (dir : String) :
    List (String × List String) :=
  if (lookupOut fs dir).isSome then fs else fs ++ [(dir, [])]

/-- Embeds lines 110-113 / 173-176 of `app.py`: `if os.path.exists(...):
shutil.rmtree(...)` followed by `os.makedirs(..., exist_ok=True)`. -/
def clearOutputDir (fs : List (String × List String)) (dir : String) :
    List (String × List String) :=
  makedirsOut (if (lookupOut fs dir).isSome then rmtreeOut fs dir else fs) dir

/-- Embeds `app.process_pdf` together with its destination-directory side
effect: the output directory is cleared and recreated first (lines
110-113), and only then is the PDF opened and read — `opened` is the
outcome of `open`/`PdfReader` (page texts and author on success, the raised
exception's message on failure), which propagates after the directory was
already cleared. -/
def process_pdf_effects (fs : List (String × List String)) (outDir : String)
    (opened : Except String (List String × Option String))
    (title bn now : String) :
    List (String × List String) × Except String Book :=
  (clearOutputDir fs outDir,
   match opened with
   | Except.error e => Except.error e
   | Except.ok pd => Except.ok (process_pdf pd.1 pd.2 title bn now))

/-- Embeds `app.process_markdown` together with its destination-directory
side effect (lines 173-176 before the file is read at line 179-180). -/
def process_markdown_effects (fs : List (String × List String)) (outDir : String)
    (opened : Except String String) (render : String → String)
    (titleHint bn now : String) :
    List (String × List String) × Except String Book :=
  (clearOutputDir fs outDir,
   match opened with
   | Except.error e => Except.error e
   | Except.ok md => Except.ok (process_markdown render md titleHint bn now))

theorem decStrList_enc (l : List String) :
    decStrList (l.map PVal.pstr) = some l := by
  induction l with
  | nil => rfl
  | cons s ss ih => simp [decStrList, ih]

theorem decNatList_enc (l : List Nat) :
    decNatList (l.map PVal.pnat) = some l := by
  induction l with
  | nil => rfl
  | cons n ns ih => simp [decNatList, ih]

theorem decOptStr_enc (o : Option String) : decOptStr (encOptStr o) = some o := by
  cases o <;> rfl

theorem decMetadata_enc (m : BookMetadata) :
    decMetadata (encMetadata m) = some m := by
  cases m
  simp [encMetadata, decMetadata, encStrList, decStrList_enc, decOptStr_enc]

theorem decChapter_enc (c : ChapterContent) :
    decChapter (encChapter c) = some c := by
  cases c
  rfl

theorem decChapterList_enc (l : List ChapterContent) :
    decChapterList (l.map encChapter) = some l := by
  induction l with
  | nil => rfl
  | cons c cs ih => simp [decChapterList, decChapter_enc, ih]

theorem decImage_enc (kv : String × List Nat) :
    decImage (encImage kv) = some kv := by
  cases kv
  simp [encImage, decImage, encBytes, decNatList_enc]

theorem decImageList_enc (l : List (String × List Nat)) :
    decImageList (l.map encImage) = some l := by
  induction l with
  | nil => rfl
  | cons kv kvs ih => simp [decImageList, decImage_enc, ih]

mutual

theorem decTOC_encTOC : ∀ e : TOCEntry, decTOC (encTOC e) = some e
  | TOCEntry.mk t h fh ch => by
    simp [encTOC, decTOC, decTOCs_encTOCs ch]

theorem decTOCs_encTOCs : ∀ l : List TOCEntry, decTOCs (encTOCs l) = some l
  | [] => by simp [encTOCs, decTOCs]
  | e :: es => by
    simp [encTOCs, decTOCs, decTOC_encTOC e, decTOCs_encTOCs es]

end

theorem decBook_encBook (b : Book) : decBook (encBook b) = some b := by
  cases b
  simp [encBook, decBook, decMetadata_enc, decChapterList_enc,
    decTOCs_encTOCs, decImageList_enc]

theorem lookupEntry_setEntry (fs : List (String × Entry)) (n : String)
    (e : Entry) : lookupEntry (setEntry fs n e) n = some e := by
  induction fs with
  | nil => simp [setEntry, lookupEntry]
  | cons p rest ih =>
    by_cases h : p.1 = n
    · simp [setEntry, h, lookupEntry]
    · cases p
      simp_all [setEntry, lookupEntry, h]

/-- C1: saving a Document and loading it back from the same directory yields
exactly the saved Document — every field, including metadata, spine contents
and order, table of contents, binary image payloads and timestamps — and
emits no error.  `save_to_pickle` is modelled from the spec (it lives in the
`reader3` module, outside the sources at hand); `load_book_from_folder` is
the loader of `app.py` lines 77-88. -/
theorem save_load_roundtrip (b : Book) (dir : String)
    (fs : List (String × Entry)) :
    load_book_from_folder dir (save_to_pickle b dir fs) = (some b, []) := by
  simp [load_book_from_folder, save_to_pickle, lookupEntry_setEntry,
    pickleLoad, decBook_encBook]

theorem pdfSpine_orders (pages : List String) :
    (pdfSpine pages).map (fun c => c.order) =
      List.range (pdfSpine pages).length := by
  unfold pdfSpine
  rw [List.map_map, List.length_map, List.length_range]
  exact List.map_id _

theorem mdStepFlush_inv (render : String → String) (st : MState)
    (h1 : st.chapter_idx = st.spine.length)
    (h2 : st.spine.map (fun c => c.order) = List.range st.spine.length) :
    (mdStepFlush render st).chapter_idx = (mdStepFlush render st).spine.length ∧
    (mdStepFlush render st).spine.map (fun c => c.order) =
      List.range (mdStepFlush render st).spine.length := by
  unfold mdStepFlush
  split
  · exact ⟨h1, h2⟩
  · refine ⟨by simp [h1], ?_⟩
    simp [mkChapter, h1, h2, List.range_succ]

theorem mdStep_inv (render : String → String) (st : MState) (p : Nat × String)
    (h1 : st.chapter_idx = st.spine.length)
    (h2 : st.spine.map (fun c => c.order) = List.range st.spine.length) :
    (mdStep render st p).chapter_idx = (mdStep render st p).spine.length ∧
    (mdStep render st p).spine.map (fun c => c.order) =
      List.range (mdStep render st p).spine.length := by
  unfold mdStep
  split
  · exact ⟨h1, h2⟩
  · split
    · exact mdStepFlush_inv render st h1 h2
    · exact ⟨h1, h2⟩

theorem mdLoop_inv (render : String → String) (l : List (Nat × String))
    (st : MState) (h1 : st.chapter_idx = st.spine.length)
    (h2 : st.spine.map (fun c => c.order) = List.range st.spine.length) :
    (l.foldl (mdStep render) st).chapter_idx =
      (l.foldl (mdStep render) st).spine.length ∧
    (l.foldl (mdStep render) st).spine.map (fun c => c.order) =
      List.range (l.foldl (mdStep render) st).spine.length := by
  induction l generalizing st with
  | nil => exact ⟨h1, h2⟩
  | cons p rest ih =>
    simp only [List.foldl_cons]
    have h := mdStep_inv render st p h1 h2
    exact ih _ h.1 h.2

theorem mdFinish_orders (render : String → String) (t mdc : String)
    (st : MState) (h1 : st.chapter_idx = st.spine.length)
    (h2 : st.spine.map (fun c => c.order) = List.range st.spine.length) :
    (mdFinish render t mdc st).map (fun c => c.order) =
      List.range (mdFinish render t mdc st).length := by
  unfold mdFinish
  split
  · simp [mkChapter, List.range_succ]
  · exact (mdStepFlush_inv render st h1 h2).2

/-- C2: for every Document produced by the PDF extractor or the Markdown
extractor, the spine's `order` values are exactly `0 .. len(spine) - 1`
in array position — that is, mapping `order` over the spine gives
`List.range` of its length, so the orders are contiguous from zero, without
gaps or duplicates, and each section's order equals its index. -/
theorem spine_orders_contiguous :
    (∀ pages author title bn now,
      (process_pdf pages author title bn now).spine.map (fun c => c.order) =
        List.range (process_pdf pages author title bn now).spine.length) ∧
    (∀ render mdContent titleHint bn now,
      (process_markdown render mdContent titleHint bn now).spine.map
          (fun c => c.order) =
        List.range (process_markdown render mdContent titleHint bn now).spine.length) := by
  constructor
  · intro pages author title bn now
    exact pdfSpine_orders pages
  · intro render mdContent titleHint bn now
    have h := mdLoop_inv render (mdSplit mdContent).enum initMState rfl rfl
    exact mdFinish_orders render _ mdContent _ h.1 h.2

theorem consumeLine_append (cs : List Char) :
    (consumeLine cs).1 ++ (consumeLine cs).2 = cs := by
  induction cs with
  | nil => rfl
  | cons c rest ih =>
    unfold consumeLine
    split
    · simp
    · simpa using ih

theorem consumeLine_fst_ne_nil (cs : List Char) (h : cs ≠ []) :
    (consumeLine cs).1 ≠ [] := by
  cases cs with
  | nil => exact absurd rfl h
  | cons c rest =>
    unfold consumeLine
    split
    · simp
    · simp

theorem consumeLine_snd_lt (cs : List Char) (h : cs ≠ []) :
    (consumeLine cs).2.length < cs.length := by
  have hlen : (consumeLine cs).1.length + (consumeLine cs).2.length
      = cs.length := by
    rw [← List.length_append, consumeLine_append]
  have hfst := List.length_pos.mpr (consumeLine_fst_ne_nil cs h)
  omega

theorem consumeLine_snd_suffix (cs : List Char) : (consumeLine cs).2 <:+ cs :=
  ⟨(consumeLine cs).1, consumeLine_append cs⟩

theorem tailsAfterNewline_sub_cons (c : Char) (cs : List Char) :
    tailsAfterNewline cs ⊆ tailsAfterNewline (c :: cs) := by
  intro r hr
  unfold tailsAfterNewline
  split
  · exact List.mem_cons_of_mem _ hr
  · exact hr

theorem tailsAfterNewline_suffix (cs r : List Char) (h : r <:+ cs) :
    tailsAfterNewline r ⊆ tailsAfterNewline cs := by
  induction cs with
  | nil =>
    have : r = [] := List.suffix_nil.mp h
    subst this
    exact fun x hx => hx
  | cons c rest ih =>
    rcases List.suffix_cons_iff.mp h with hEq | hSuf
    · subst hEq
      exact fun x hx => hx
    · exact fun x hx => tailsAfterNewline_sub_cons c rest (ih hSuf hx)

theorem consumeLine_snd_nil_or_tail (cs : List Char) :
    (consumeLine cs).2 = [] ∨ (consumeLine cs).2 ∈ tailsAfterNewline cs := by
  induction cs with
  | nil => exact Or.inl rfl
  | cons c rest ih =>
    unfold consumeLine
    split
    · right
      unfold tailsAfterNewline
      next hc => simp [hc]
    · rcases ih with h | h
      · exact Or.inl (by simpa using h)
      · right
        exact tailsAfterNewline_sub_cons c rest (by simpa using h)

theorem mdSplitGo_no_heading (fuel : Nat) (cs chunk : List Char)
    (hfuel : cs.length < fuel)
    (h0 : matchHeading cs = none)
    (h : ∀ r ∈ tailsAfterNewline cs, matchHeading r = none) :
    mdSplitGo fuel cs chunk = [String.mk (chunk ++ cs)] := by
  induction fuel generalizing cs chunk with
  | zero => omega
  | succ f ih =>
    unfold mdSplitGo mdSplitStep
    rw [h0]
    cases cs with
    | nil => simp
    | cons c rest =>
      have hlt := consumeLine_snd_lt (c :: rest) (by simp)
      have hsub := tailsAfterNewline_suffix (c :: rest) _
        (consumeLine_snd_suffix (c :: rest))
      have h0' : matchHeading (consumeLine (c :: rest)).2 = none := by
        rcases consumeLine_snd_nil_or_tail (c :: rest) with hnil | htl
        · rw [hnil]; rfl
        · exact h _ htl
      have h' : ∀ r ∈ tailsAfterNewline (consumeLine (c :: rest)).2,
          matchHeading r = none := fun r hr => h r (hsub hr)
      rw [ih _ _ (by omega) h0' h']
      rw [List.append_assoc, consumeLine_append]

theorem matchWsBody_hash_head (l : List Char) :
    matchWsBody ('#' :: l) = none := by
  unfold matchWsBody
  simp [List.takeWhile_cons, show isPySpace '#' = false from rfl]

theorem matchHeading_ne_none_of_matchH1At (cs : List Char) (g : List Char)
    (h : matchH1At cs = some g) : matchHeading cs ≠ none := by
  unfold matchH1At at h
  split at h
  next rest =>
    split at h
    next sp g2 r heqws =>
      unfold matchHeading
      split
      next rest2 heq =>
        rw [List.cons.injEq] at heq
        rw [heq.2] at heqws
        rw [matchWsBody_hash_head] at heqws
        exact absurd heqws (by simp)
      next heq =>
        rw [List.cons.injEq] at heq
        rw [← heq.2, heqws]
        simp
      next hne1 hne2 =>
        exact absurd rfl (hne2 rest)
    next => exact absurd h (by simp)
  next => exact absurd h (by simp)

theorem findH1_none_of_no_heading (cs : List Char)
    (h0 : matchHeading cs = none)
    (h : ∀ r ∈ tailsAfterNewline cs, matchHeading r = none) :
    findH1 cs = none := by
  unfold findH1
  rw [List.findSome?_eq_none_iff]
  intro r hr
  cases hm : matchH1At r with
  | none => rfl
  | some g =>
    exfalso
    rcases List.mem_cons.mp hr with hEq | hTl
    · subst hEq
      exact matchHeading_ne_none_of_matchH1At r g hm h0
    · exact matchHeading_ne_none_of_matchH1At r g hm (h r hTl)

theorem pyStripChars_hash_ne_empty (rest : List Char) :
    (pyStripChars ('#' :: rest)).isEmpty = false := by
  rw [List.isEmpty_eq_false]
  intro hnil
  unfold pyStripChars at hnil
  rw [List.dropWhile_cons] at hnil
  rw [show isPySpace '#' = false from rfl] at hnil
  simp only [Bool.false_eq_true, if_false] at hnil
  rw [List.reverse_eq_nil_iff, List.dropWhile_eq_nil_iff] at hnil
  have hmem : ('#' : Char) ∈ ('#' :: rest).reverse := by simp
  exact absurd (hnil '#' hmem) (by decide)

theorem secStartsHash_strip (s : String) (h : secStartsHash s = true) :
    (pyStripChars s.data).isEmpty = false := by
  unfold secStartsHash at h
  split at h
  next rest heq =>
    rw [heq]
    exact pyStripChars_hash_ne_empty rest
  next => exact absurd h (by simp)

theorem string_empty_append (s : String) : "" ++ s = s := by
  cases s
  rfl

theorem joinStrs_singleton (s : String) : joinStrs [s] = s := by
  unfold joinStrs
  rw [List.foldl_cons, List.foldl_nil]
  exact string_empty_append s

/-- C3 counterexample: on a zero-page input, `process_pdf` does return a
Document, and its spine is empty — so "fails with a FormatError" and "spine
length ≥ 1" both fail on the code. -/
theorem pdf_zero_pages_returns_empty_document :
    (process_pdf [] none "Empty" "empty.pdf" "t0").spine.length = 0 ∧
    ¬ 1 ≤ (process_pdf [] none "Empty" "empty.pdf" "t0").spine.length := by
  decide

/-- C3 (amended): the PDF extractor itself never fails; it returns a
Document whose spine is empty exactly when the input has zero pages (an
error can arise only from the external open/parse step, before any pages
are seen).  In particular spine length ≥ 1 holds only for inputs with at
least one page. -/
theorem pdf_spine_empty_iff_no_pages (pages : List String)
    (author : Option String) (title bn now : String) :
    ((process_pdf pages author title bn now).spine.isEmpty = true ↔
      pages = []) := by
  simp only [process_pdf, pdfSpine]
  rw [List.isEmpty_iff, List.map_eq_nil_iff, List.range_eq_nil]
  constructor
  · intro h
    have hl : pages.length = 0 := by omega
    exact List.length_eq_zero.mp hl
  · intro h
    subst h
    rfl

/-- C6: for every PDF input with at least one page, the extractor produces
`ceil(pages/10)` sections; section `k` covers the ten consecutive pages
starting at page `10k` (the last group possibly shorter), its text is those
pages joined with a blank-line separator, and its title is
`"Pages {first}-{last}"` with 1-based inclusive page numbers. -/
theorem pdf_grouping_titles (pages : List String) (author : Option String)
    (title bn now : String) (hpos : 1 ≤ pages.length) :
    (process_pdf pages author title bn now).spine.length =
      (pages.length + 9) / 10 ∧
    ∀ k, k < (pages.length + 9) / 10 →
      ((process_pdf pages author title bn now).spine.getD k dummyChapter).title =
          s!"Pages {10 * k + 1}-{min (10 * k + 10) pages.length}" ∧
      ((process_pdf pages author title bn now).spine.getD k dummyChapter).text =
          joinSep "\n\n"
            ((pages.drop (10 * k)).take (min (10 * k + 10) pages.length - 10 * k)) := by
  refine ⟨by simp [process_pdf, pdfSpine], ?_⟩
  intro k hk
  have hgd : (process_pdf pages author title bn now).spine.getD k dummyChapter =
      (fun k =>
        ({ id := s!"chapter_{k}", href := s!"chapter_{k}.html",
           title := s!"Pages {10 * k + 1}-{min (10 * k + 10) pages.length}",
           content := "<div style=\x27white-space: pre-wrap;\x27>" ++
             joinSep "\n\n"
               ((pages.drop (10 * k)).take (min (10 * k + 10) pages.length - 10 * k)) ++
             "</div>",
           text := joinSep "\n\n"
             ((pages.drop (10 * k)).take (min (10 * k + 10) pages.length - 10 * k)),
           order := k } : ChapterContent)) k := by
    show (pdfSpine pages).getD k dummyChapter = _
    unfold pdfSpine
    rw [List.getD_eq_getElem?_getD, List.getElem?_map, List.getElem?_range hk]
    rfl
  rw [hgd]
  exact ⟨rfl, rfl⟩

/-- Witness for C6 at a concrete 25-page input: the hypothesis `1 ≤ 25`
holds, the theorem applies, and the three sections carry exactly the titles
"Pages 1-10", "Pages 11-20", "Pages 21-25". -/
theorem pdf_grouping_titles_witness :
    1 ≤ (List.replicate 25 "pg").length ∧
    (process_pdf (List.replicate 25 "pg") none "T" "b.pdf" "t0").spine.map
        (fun c => c.title) = ["Pages 1-10", "Pages 11-20", "Pages 21-25"] ∧
    (process_pdf (List.replicate 25 "pg") none "T" "b.pdf" "t0").spine.length =
      ((List.replicate 25 "pg").length + 9) / 10 :=
  ⟨by decide, by decide,
    (pdf_grouping_titles (List.replicate 25 "pg") none "T" "b.pdf" "t0"
      (by decide)).1⟩

/-- C4 counterexample: for the heading-free input `"Hello world"` the single
produced Section is titled `"Introduction"`, not with the supplied title
hint `"Hint"` — refuting the claim that the section is titled by the
hint. -/
theorem markdown_no_headings_title_not_hint :
    (process_markdown (fun s => s) "Hello world" "Hint" "notes.md" "t0").spine.map
        (fun c => c.title) = ["Introduction"] ∧
    ("Introduction" : String) ≠ "Hint" := by
  exact ⟨rfl, by decide⟩

/-- C4 (amended): when the Markdown input has no position at which the
heading pattern `^(#{1,2}\s+.+)$` matches, the extractor keeps the supplied
title hint as document title and produces exactly one Section whose text is
the whole input — but that Section is titled `"Introduction"`, not with the
title hint (the hint-titled single-chapter fallback of lines 257-270 is not
reached, because the loop always accumulates the single split piece into
`current_content`). -/
theorem markdown_no_headings_single_introduction_section
    (render : String → String) (mdContent : String) (titleHint bn now : String)
    (h : ∀ r ∈ mdContent.data :: tailsAfterNewline mdContent.data,
      matchHeading r = none) :
    (process_markdown render mdContent titleHint bn now).metadata.title
        = titleHint ∧
    (process_markdown render mdContent titleHint bn now).spine =
      [{ id := "chapter_0", href := "chapter_0.html", title := "Introduction",
         content := render mdContent, text := mdContent, order := 0 }] := by
  have h0 : matchHeading mdContent.data = none := h _ (List.mem_cons_self _ _)
  have htl : ∀ r ∈ tailsAfterNewline mdContent.data, matchHeading r = none :=
    fun r hr => h r (List.mem_cons_of_mem _ hr)
  have hfind : findH1 mdContent.data = none := findH1_none_of_no_heading _ h0 htl
  have hsplit : mdSplit mdContent = [mdContent] := by
    unfold mdSplit
    rw [mdSplitGo_no_heading _ _ _ (Nat.lt_succ_self _) h0 htl]
    simp
  have hstate : ((mdSplit mdContent).enum).foldl (mdStep render) initMState =
      { spine := [], current_title := "Introduction",
        current_content := [mdContent], chapter_idx := 0 } := by
    rw [hsplit]
    show mdStep render initMState (0, mdContent) = _
    unfold mdStep
    by_cases hA : (pyStripChars mdContent.data).isEmpty
    · rw [if_neg (by simp [hA])]
      have hB : secStartsHash mdContent = false := by
        cases hsec : secStartsHash mdContent with
        | false => rfl
        | true => exact absurd (secStartsHash_strip mdContent hsec) (by simp [hA])
      rw [if_neg (by simp [hB])]
      simp [initMState]
    · rw [if_pos (by simp [hA])]
      simp [initMState]
  constructor
  · show (match findH1 mdContent.data with
      | some g => String.mk g
      | none => titleHint) = titleHint
    rw [hfind]
  · show mdFinish render _ mdContent
        (((mdSplit mdContent).enum).foldl (mdStep render) initMState) = _
    rw [hstate]
    unfold mdFinish mdStepFlush
    simp only [List.isEmpty_cons, Bool.false_eq_true, if_false]
    rw [joinStrs_singleton]
    simp [mkChapter]
    exact ⟨rfl, rfl⟩

/-- Witness for C4's amended theorem at the heading-free input
`"Hello world"`. -/
theorem markdown_no_headings_witness :
    (∀ r ∈ ("Hello world".data :: tailsAfterNewline "Hello world".data),
      matchHeading r = none) ∧
    ((process_markdown (fun s => s) "Hello world" "Hint" "notes.md"
        "t0").metadata.title = "Hint" ∧
     (process_markdown (fun s => s) "Hello world" "Hint" "notes.md" "t0").spine =
       [{ id := "chapter_0", href := "chapter_0.html", title := "Introduction",
          content := (fun s => s) "Hello world", text := "Hello world",
          order := 0 }]) :=
  ⟨by decide, markdown_no_headings_single_introduction_section (fun s => s)
    "Hello world" "Hint" "notes.md" "t0" (by decide)⟩

/-- C5 counterexample: the example input produces three Sections, not
two (an empty leading `"Introduction"` section is also created). -/
theorem markdown_example_three_sections_not_two :
    (process_markdown (fun s => s)
        "# Title\n\nIntro text\n\n## Section A\n\nBody A" "hint" "doc.md"
        "t0").spine.length = 3 ∧
    (process_markdown (fun s => s)
        "# Title\n\nIntro text\n\n## Section A\n\nBody A" "hint" "doc.md"
        "t0").spine.length ≠ 2 := by
  exact ⟨rfl, by decide⟩

/-- C5 (amended): for the input
`"# Title\n\nIntro text\n\n## Section A\n\nBody A"` the heading `"Title"`
does become the document title, but the spine has exactly three Sections:
an empty Section titled `"Introduction"` (from the empty piece before the
first heading), a Section titled `"Title"` with text
`"\n\nIntro text\n\n"`, and a Section titled `"Section A"` with text
`"\n\nBody A"` (the separator newlines stay in the section text). -/
theorem markdown_example_exact_sections (render : String → String)
    (titleHint bn now : String) :
    (process_markdown render "# Title\n\nIntro text\n\n## Section A\n\nBody A"
        titleHint bn now).metadata.title = "Title" ∧
    (process_markdown render "# Title\n\nIntro text\n\n## Section A\n\nBody A"
        titleHint bn now).spine =
      [{ id := "chapter_0", href := "chapter_0.html", title := "Introduction",
         content := render "", text := "", order := 0 },
       { id := "chapter_1", href := "chapter_1.html", title := "Title",
         content := render "\n\nIntro text\n\n", text := "\n\nIntro text\n\n",
         order := 1 },
       { id := "chapter_2", href := "chapter_2.html", title := "Section A",
         content := render "\n\nBody A", text := "\n\nBody A", order := 2 }] := by
  constructor
  · with_unfolding_all rfl
  · with_unfolding_all rfl

/-- C7 counterexample: in `"## Sub\n\nx\n\n# Main\n\ny"` the first heading
encountered is level-2, yet the later level-1 heading `"# Main"` still
overrides the title hint — the document title becomes `"Main"`, not
`"Hint"`. -/
theorem markdown_later_h1_overrides_hint :
    (process_markdown (fun s => s) "## Sub\n\nx\n\n# Main\n\ny" "Hint" "doc.md"
        "t0").metadata.title = "Main" ∧
    ("Main" : String) ≠ "Hint" := by
  exact ⟨rfl, by decide⟩

/-- C7 (amended): the document title is the capture of the first position
(in document order) at which the level-1 pattern `^#\s+(.+)$` matches,
regardless of any level-2 heading occurring earlier; the title hint is kept
only when no position matches.  The second conjunct shows this on a
document whose first heading is level-2. -/
theorem markdown_title_first_h1_match (render : String → String)
    (mdContent titleHint bn now : String) :
    ((process_markdown render mdContent titleHint bn now).metadata.title =
      (match findH1 mdContent.data with
       | some g => String.mk g
       | none => titleHint)) ∧
    (process_markdown render "## Sub\n\nx\n\n# Main\n\ny" titleHint bn
        now).metadata.title = "Main" := by
  constructor
  · rfl
  · with_unfolding_all rfl

/-- C8: `load_book_from_folder` returns `None` — and emits nothing — when
the artifact file does not exist (missing directory, directory without
`book.pkl`), and when the artifact exists but fails to deserialize it
catches the exception, reports an error message (`st.error`), and still
returns `None`: the corrupt case is signalled through a non-empty error
report, distinct from the silent NotFound outcome, and no unstructured
fault reaches the caller. -/
theorem load_notfound_and_corrupt_signalling (name : String)
    (fs : List (String × Entry)) :
    (lookupEntry fs name = none →
      load_book_from_folder name fs = (none, [])) ∧
    (lookupEntry fs name = some (Entry.dir none) →
      load_book_from_folder name fs = (none, [])) ∧
    (∀ f, lookupEntry fs name = some (Entry.dir (some f)) →
      pickleLoad f = none →
      load_book_from_folder name fs = (none, [loadErr name]) ∧
      ([loadErr name] : List String) ≠ []) := by
  refine ⟨?_, ?_, ?_⟩
  · intro h
    unfold load_book_from_folder
    rw [h]
  · intro h
    unfold load_book_from_folder
    rw [h]
  · intro f h1 h2
    unfold load_book_from_folder
    rw [h1]
    dsimp only
    rw [h2]
    exact ⟨rfl, by simp⟩

/-- Witness for C8: a directory whose `book.pkl` is corrupt yields `None`
plus an error report; a missing directory yields `None` with no report. -/
theorem load_notfound_and_corrupt_signalling_witness :
    load_book_from_folder "x_data"
        [("x_data", Entry.dir (some StoredFile.corrupt))] =
      (none, [loadErr "x_data"]) ∧
    load_book_from_folder "missing_data" [] = (none, []) :=
  ⟨((load_notfound_and_corrupt_signalling "x_data"
      [("x_data", Entry.dir (some StoredFile.corrupt))]).2.2
      StoredFile.corrupt rfl rfl).1,
   (load_notfound_and_corrupt_signalling "missing_data" []).1 rfl⟩

/-- The summary a root entry contributes when scanned: directories with the
`_data` suffix whose artifact loads contribute `mkSummary`; everything else
is skipped. -/
def summarizeEntry (p : String × Entry) : Option BookSummary :=
  match p.2 with
  | Entry.dir (some f) =>
    if nameHasDataSuffix p.1 then
      (match pickleLoad f with
       | some b => some (mkSummary p.1 b)
       | none => none)
    else none
  | _ => none

theorem lookupEntry_of_mem (fs : List (String × Entry))
    (hnd : (fs.map Prod.fst).Nodup) (p : String × Entry) (hp : p ∈ fs) :
    lookupEntry fs p.1 = some p.2 := by
  induction fs with
  | nil => cases hp
  | cons q rest ih =>
    rw [List.map_cons] at hnd
    have hnd2 := List.nodup_cons.mp hnd
    rcases List.mem_cons.mp hp with hEq | hMem
    · subst hEq
      cases p
      unfold lookupEntry
      simp
    · have hne : q.1 ≠ p.1 := by
        intro hEq
        exact hnd2.1 (hEq ▸ List.mem_map_of_mem Prod.fst hMem)
      cases q
      unfold lookupEntry
      rw [if_neg hne]
      exact ih hnd2.2 hMem

theorem get_all_books_go_fst (fs rem : List (String × Entry))
    (h : ∀ p ∈ rem, lookupEntry fs p.1 = some p.2) :
    (get_all_books_go fs rem).1 = rem.filterMap summarizeEntry := by
  induction rem with
  | nil => rfl
  | cons p rest ih =>
    have hp := h p (List.mem_cons_self _ _)
    have ih' := ih (fun q hq => h q (List.mem_cons_of_mem _ hq))
    cases p with
    | mk n e =>
    unfold get_all_books_go
    rw [List.filterMap_cons]
    cases e with
    | plain =>
      simp only [summarizeEntry, isDirEntry, Bool.false_and, Bool.false_eq_true,
        if_false]
      exact ih'
    | dir art =>
      cases art with
      | none =>
        have hload : load_book_from_folder n fs = (none, []) := by
          unfold load_book_from_folder
          rw [hp]
        by_cases hsuf : nameHasDataSuffix n = true
        · rw [if_pos (by simp [isDirEntry, hsuf])]
          rw [hload]
          simp only [summarizeEntry, hsuf]
          simpa using ih'
        · rw [if_neg (by simp [isDirEntry, hsuf])]
          simp only [summarizeEntry, hsuf]
          simpa using ih'
      | some f =>
        have hload : load_book_from_folder n fs =
            (match pickleLoad f with
             | some b => (some b, [])
             | none => (none, [loadErr n])) := by
          unfold load_book_from_folder
          rw [hp]
        by_cases hsuf : nameHasDataSuffix n = true
        · rw [if_pos (by simp [isDirEntry, hsuf])]
          rw [hload]
          cases hpk : pickleLoad f with
          | some b =>
            simp only [summarizeEntry, hsuf, hpk, if_pos]
            simpa [mkSummary] using congrArg (List.cons (mkSummary n b)) ih'
          | none =>
            simp only [summarizeEntry, hsuf, hpk]
            simpa using ih'
        · rw [if_neg (by simp [isDirEntry, hsuf])]
          simp only [summarizeEntry, hsuf]
          simpa using ih'

/-- C9: over any root listing (with distinct entry names, as on a real
filesystem), `get_all_books` returns exactly one summary per directory
entry whose name carries the `_data` suffix and whose artifact loads,
skipping — without raising — every other entry (non-directories, wrong
suffix, missing or corrupt artifacts); each summary holds the subdirectory
name, the book's title, its authors and its spine length (see
`summarizeEntry`/`mkSummary`).  The second conjunct instantiates this: a
root with one valid artifact and one corrupt artifact yields exactly one
summary, and the corrupt entry only contributes a reported warning. -/
theorem scan_summaries_characterization :
    (∀ fs : List (String × Entry), (fs.map Prod.fst).Nodup →
      (get_all_books fs).1 = fs.filterMap summarizeEntry) ∧
    (∀ b : Book,
      get_all_books
        [("good_data", Entry.dir (some (StoredFile.blob (encBook b)))),
         ("bad_data", Entry.dir (some StoredFile.corrupt))] =
      ([mkSummary "good_data" b], [loadErr "bad_data"])) := by
  constructor
  · intro fs hnd
    exact get_all_books_go_fst fs fs (fun p hp => lookupEntry_of_mem fs hnd p hp)
  · intro b
    have hl1 : load_book_from_folder "good_data"
        [("good_data", Entry.dir (some (StoredFile.blob (encBook b)))),
         ("bad_data", Entry.dir (some StoredFile.corrupt))] = (some b, []) := by
      unfold load_book_from_folder
      rw [show lookupEntry
          [("good_data", Entry.dir (some (StoredFile.blob (encBook b)))),
           ("bad_data", Entry.dir (some StoredFile.corrupt))] "good_data" =
          some (Entry.dir (some (StoredFile.blob (encBook b)))) from by
        unfold lookupEntry
        rw [if_pos rfl]]
      dsimp only
      rw [show pickleLoad (StoredFile.blob (encBook b)) = some b from
        decBook_encBook b]
    have hl2 : load_book_from_folder "bad_data"
        [("good_data", Entry.dir (some (StoredFile.blob (encBook b)))),
         ("bad_data", Entry.dir (some StoredFile.corrupt))] =
        (none, [loadErr "bad_data"]) := by
      unfold load_book_from_folder
      rw [show lookupEntry
          [("good_data", Entry.dir (some (StoredFile.blob (encBook b)))),
           ("bad_data", Entry.dir (some StoredFile.corrupt))] "bad_data" =
          some (Entry.dir (some StoredFile.corrupt)) from by
        unfold lookupEntry
        rw [if_neg (by decide)]
        rfl]
      rfl
    show get_all_books_go _ _ = _
    simp only [get_all_books_go, isDirEntry,
      show nameHasDataSuffix "good_data" = true from rfl,
      show nameHasDataSuffix "bad_data" = true from rfl,
      Bool.and_self, Bool.true_and, if_true, hl1, hl2]
    simp

/-- Witness for C9 on a concrete listing with distinct names. -/
theorem scan_summaries_witness :
    ((([("a_data", Entry.dir none), ("b", Entry.plain)] :
        List (String × Entry)).map Prod.fst).Nodup) ∧
    (get_all_books [("a_data", Entry.dir none), ("b", Entry.plain)]).1 =
      ([("a_data", Entry.dir none), ("b", Entry.plain)] :
        List (String × Entry)).filterMap summarizeEntry :=
  ⟨by decide, scan_summaries_characterization.1 _ (by decide)⟩

theorem lookupOut_append_self (dir : String) (x : List String) :
    ∀ fs, lookupOut fs dir = none →
      lookupOut (fs ++ [(dir, x)]) dir = some x := by
  intro fs
  induction fs with
  | nil =>
    intro _
    rw [List.nil_append]
    unfold lookupOut
    rw [if_pos rfl]
  | cons p rest ih =>
    intro h
    cases p with
    | mk m fls =>
    rw [List.cons_append]
    unfold lookupOut at h ⊢
    by_cases hmd : m = dir
    · rw [if_pos hmd] at h
      exact absurd h (by simp)
    · rw [if_neg hmd] at h ⊢
      exact ih h

theorem lookupOut_rmtree (fs : List (String × List String)) (dir : String) :
    lookupOut (rmtreeOut fs dir) dir = none := by
  induction fs with
  | nil => rfl
  | cons p rest ih =>
    cases p with
    | mk m fls =>
    unfold rmtreeOut at ih ⊢
    rw [List.filter_cons]
    by_cases hmd : m = dir
    · rw [if_neg (by simp [hmd])]
      exact ih
    · rw [if_pos (by simp [hmd])]
      unfold lookupOut
      rw [if_neg hmd]
      exact ih

theorem clearOutputDir_lookup (fs : List (String × List String)) (dir : String) :
    lookupOut (clearOutputDir fs dir) dir = some [] := by
  unfold clearOutputDir makedirsOut
  by_cases hex : (lookupOut fs dir).isSome
  · rw [if_pos hex]
    have h0 : lookupOut (rmtreeOut fs dir) dir = none := lookupOut_rmtree fs dir
    simp only [h0, Option.isSome_none, Bool.false_eq_true, if_false]
    exact lookupOut_append_self dir [] _ h0
  · rw [if_neg hex]
    have h0 : lookupOut fs dir = none := by
      cases hl : lookupOut fs dir with
      | none => rfl
      | some v => rw [hl] at hex; simp at hex
    simp only [h0, Option.isSome_none, Bool.false_eq_true, if_false]
    exact lookupOut_append_self dir [] _ h0

/-- C10: both extractors clear the destination directory first — after the
call the destination exists and holds no files from the pre-existing tree,
regardless of whether the subsequent open/read of the input succeeded; when
it failed, the error propagates while the prior artifact remains destroyed
(nothing is restored). -/
theorem extractors_clear_destination :
    (∀ fs outDir opened title bn now,
      lookupOut (process_pdf_effects fs outDir opened title bn now).1 outDir =
        some [] ∧
      ∀ e, opened = Except.error e →
        (process_pdf_effects fs outDir opened title bn now).2 = Except.error e) ∧
    (∀ fs outDir opened render titleHint bn now,
      lookupOut
          (process_markdown_effects fs outDir opened render titleHint bn now).1
          outDir = some [] ∧
      ∀ e, opened = Except.error e →
        (process_markdown_effects fs outDir opened render titleHint bn now).2 =
          Except.error e) := by
  constructor
  · intro fs outDir opened title bn now
    refine ⟨clearOutputDir_lookup fs outDir, ?_⟩
    intro e h
    subst h
    rfl
  · intro fs outDir opened render titleHint bn now
    refine ⟨clearOutputDir_lookup fs outDir, ?_⟩
    intro e h
    subst h
    rfl

/-- Witness for C10: a destination holding a prior `book.pkl` is emptied
even though opening the input fails. -/
theorem extractors_clear_destination_witness :
    lookupOut (process_pdf_effects [("out_data", ["book.pkl"])] "out_data"
        (Except.error "io error") "T" "b.pdf" "t0").1 "out_data" = some [] ∧
    (process_pdf_effects [("out_data", ["book.pkl"])] "out_data"
        (Except.error "io error") "T" "b.pdf" "t0").2 =
      Except.error "io error" ∧
    lookupOut (process_markdown_effects [("out_data", ["book.pkl"])] "out_data"
        (Except.error "io error") (fun s => s) "hint" "n.md" "t0").1 "out_data" =
      some [] :=
  ⟨(extractors_clear_destination.1 _ _ _ _ _ _).1,
   (extractors_clear_destination.1 _ _ _ _ _ _).2 "io error" rfl,
   (extractors_clear_destination.2 _ _ _ _ _ _ _).1⟩
